import Mathlib

/-
Verification development for the `pylibp2p` bindings crate
(src/crates/pylibp2p/src/lib.rs): a shallow embedding of the
`Libp2pNode` engine lifecycle, the scheduler loop, the bounded event
log, and the connection-stats tracker, together with proofs of the
specified lifecycle and bridging properties.

Modelling conventions:
- Peer ids, multiaddresses, topics and debug renderings are strings.
- Locks (`Arc<Mutex<_>>`) are modelled as plain state fields; lock
  acquisition never fails (poisoning requires a panic, which the
  modelled code does not perform while holding a lock).
- `u64` counters are modelled as `Nat`.
- Calls into the external libp2p crates (address parsing, `Swarm::dial`,
  `listen_on`, gossipsub publish, kademlia `add_address`) are abstracted
  behind an `ExternalApi` record; the gossipsub subscribe/unsubscribe
  result booleans are modelled from the crate's documented semantics.
- The spawned scheduler-loop tasks are modelled as a *list* of loop
  states, so that "at most one active loop" is a provable property of
  the transition system rather than a consequence of the encoding.
-/

set_option maxHeartbeats 1000000

namespace PyLibp2p

/-- Occurrences of the libp2p `SwarmEvent` stream that the scheduler loop
matches on (lib.rs lines 304-354). `other` stands for the wildcard
arm. -/
inductive RawEvent where
  | newListenAddr (address : String)
  | connectionEstablished (peer_id : String) (remoteAddress : String)
  | connectionClosed (peer_id : String) (cause : String)
  | behaviour (dbg : String)
  | other
deriving DecidableEq

/-- Rust struct `CustomSwarmEvent` (lib.rs lines 31-44). The
`data : Option<Vec<u8>>` field is modelled by the formatted text the code
builds it from. -/
structure CustomSwarmEvent where
  event_type : String
  peer_id : Option String
  data : Option String
  address : Option String
  topic : Option String
deriving DecidableEq

/-- State of the libp2p `Swarm` as far as the bindings read or change it:
snapshot lists of rendered connected peers, listeners and external
addresses, and the gossipsub subscription set. -/
structure Swarm where
  connectedPeers : List String
  listeners : List String
  externalAddresses : List String
  subscribedTopics : List String
deriving DecidableEq

/-- Program counter of one spawned scheduler-loop task: `checking` means
the task is at the top of the loop, about to test the running flag
(lib.rs 292-302); `awaiting` means it passed the check and is inside
`swarm.select_next_some().await` (lib.rs 304). -/
inductive LoopPc where
  | checking
  | awaiting
deriving DecidableEq

/-- One spawned scheduler loop: the engine it owns and its program
counter. -/
structure LoopTask where
  engine : Swarm
  pc : LoopPc
deriving DecidableEq

/-- Shared state of `Libp2pNode` (lib.rs 57-65): the engine slot
`swarm : Arc<Mutex<Option<Swarm>>>`, the event queue, the connection
stats map (an association list), the running flag, and the list of
spawned scheduler-loop tasks. -/
structure NodeState where
  slot : Option Swarm
  event_queue : List CustomSwarmEvent
  connection_stats : List (String × Nat)
  running : Bool
  loops : List LoopTask
deriving DecidableEq

/-- Python-level errors raised by the bindings. -/
inductive PyErr where
  | valueError (msg : String)
  | runtimeError (msg : String)
deriving DecidableEq

/-- Result type of the PyO3 methods returning `PyResult<()>`. -/
abbrev PyResult := Except PyErr Unit

def errAlreadyRunning : String := "Event loop already running"
def errNoSwarm : String := "No swarm available"
def errUnsubscribeFailed : String := "Failed to unsubscribe from topic"
def errInvalidAddress : String := "Invalid address"
def errInvalidPeerId : String := "Invalid peer ID"

/-- External collaborators from the libp2p crates: address and peer-id
parsing, and the engine-level calls whose outcomes are decided outside
this repository. -/
structure ExternalApi where
  parseMultiaddr : String → Option String
  parsePeerId : String → Option String
  listenOn : Swarm → String → Except String Swarm
  swarmDial : Swarm → String → Except String Swarm
  gossipPublish : Swarm → String → List Nat → Except String Swarm
  kadAddAddress : Swarm → String → String → Swarm

/-- Modelled from the external `libp2p-gossipsub` crate: `subscribe`
returns `true` when the topic is newly subscribed, `false` when it was
already present. -/
def gossipsubSubscribe (sw : Swarm) (topic : String) : Bool × Swarm :=
  if topic ∈ sw.subscribedTopics then (false, sw)
  else (true, { sw with subscribedTopics := topic :: sw.subscribedTopics })

/-- Modelled from the external `libp2p-gossipsub` crate: `unsubscribe`
returns `true` exactly when the topic was currently subscribed, and
removes it from the subscription set. -/
def gossipsubUnsubscribe (sw : Swarm) (topic : String) : Bool × Swarm :=
  (decide (topic ∈ sw.subscribedTopics),
   { sw with subscribedTopics :=
      sw.subscribedTopics.filter (fun t => decide (t ≠ topic)) })

/-- Rust statement `*stats.entry(peer_id.to_string()).or_insert(0) += 1`
(lib.rs 317-319): bump the peer's counter in the map, creating the entry
at 1 when absent. -/
def bumpEntry : List (String × Nat) → String → List (String × Nat)
  | [], p => [(p, 1)]
  | (q, n) :: rest, p =>
      if q = p then (q, n + 1) :: rest else (q, n) :: bumpEntry rest p

/-- Match arms of the scheduler loop (lib.rs 304-354): which
`CustomSwarmEvent`, if any, an observed occurrence appends to the event
queue. -/
def classify : RawEvent → Option CustomSwarmEvent
  | .newListenAddr a =>
      some ⟨"NewListenAddr", none, none, some a, none⟩
  | .connectionEstablished p ra =>
      some ⟨"ConnectionEstablished", some p, none, some ra, none⟩
  | .connectionClosed p c =>
      some ⟨"ConnectionClosed", some p, some c, none, none⟩
  | .behaviour d =>
      some ⟨"BehaviourEvent", none, some d, none, none⟩
  | .other => none

/-- Connection-stats effect of one observed occurrence (lib.rs 316-319):
only `ConnectionEstablished` touches the stats map. -/
def statsUpdate (stats : List (String × Nat)) : RawEvent → List (String × Nat)
  | .connectionEstablished p _ => bumpEntry stats p
  | _ => stats

/-- Cap on the event queue enforced by the scheduler loop (lib.rs 358). -/
def queueCap : Nat := 1000

/-- Rust statement `if queue.len() > 1000 { queue.drain(0..500); }`
(lib.rs 356-361): when the queue holds more than the cap, drop the
oldest `queueCap / 2` entries in one batch. -/
def trimQueue (q : List CustomSwarmEvent) : List CustomSwarmEvent :=
  if queueCap < q.length then q.drop (queueCap / 2) else q

/-- Event-queue effect of one scheduler-loop iteration (lib.rs 304-361):
push the classified event, if any, then trim. -/
def pushAndTrim (q : List CustomSwarmEvent) (ev : RawEvent) :
    List CustomSwarmEvent :=
  trimQueue (q ++ (classify ev).toList)

/-- Method `start_listening` (lib.rs 147-158). When the slot is empty the
`if let Some` body is skipped and the method falls through to `Ok(())`. -/
def start_listening (api : ExternalApi) (s : NodeState) (address : String) :
    PyResult × NodeState :=
  match api.parseMultiaddr address with
  | none => (.error (.valueError errInvalidAddress), s)
  | some addr =>
    match s.slot with
    | some sw =>
      match api.listenOn sw addr with
      | .error e => (.error (.runtimeError e), s)
      | .ok sw' => (.ok (), { s with slot := some sw' })
    | none => (.ok (), s)

/-- Method `dial` (lib.rs 160-171). -/
def dial (api : ExternalApi) (s : NodeState) (address : String) :
    PyResult × NodeState :=
  match api.parseMultiaddr address with
  | none => (.error (.valueError errInvalidAddress), s)
  | some addr =>
    match s.slot with
    | some sw =>
      match api.swarmDial sw addr with
      | .error e => (.error (.runtimeError e), s)
      | .ok sw' => (.ok (), { s with slot := some sw' })
    | none => (.ok (), s)

/-- Method `publish_gossip` (lib.rs 173-183). -/
def publish_gossip (api : ExternalApi) (s : NodeState) (topic : String)
    (data : List Nat) : PyResult × NodeState :=
  match s.slot with
  | some sw =>
    match api.gossipPublish sw topic data with
    | .error e => (.error (.runtimeError e), s)
    | .ok sw' => (.ok (), { s with slot := some sw' })
  | none => (.ok (), s)

/-- Method `subscribe_gossip` (lib.rs 185-195): the bindings keep only the
error case of the gossipsub `subscribe` call, which the modelled
gossipsub never produces. -/
def subscribe_gossip (s : NodeState) (topic : String) : PyResult × NodeState :=
  match s.slot with
  | some sw => (.ok (), { s with slot := some (gossipsubSubscribe sw topic).2 })
  | none => (.ok (), s)

/-- Method `unsubscribe_gossip` (lib.rs 197-208): returns a runtime error
when the gossipsub `unsubscribe` call reports the topic was not
subscribed; falls through to `Ok(())` when the slot is empty. -/
def unsubscribe_gossip (s : NodeState) (topic : String) :
    PyResult × NodeState :=
  match s.slot with
  | some sw =>
    let r := gossipsubUnsubscribe sw topic
    if !r.1 then
      (.error (.runtimeError errUnsubscribeFailed), { s with slot := some r.2 })
    else
      (.ok (), { s with slot := some r.2 })
  | none => (.ok (), s)

/-- Method `add_address` (lib.rs 210-222). -/
def add_address (api : ExternalApi) (s : NodeState)
    (peer_id address : String) : PyResult × NodeState :=
  match api.parsePeerId peer_id with
  | none => (.error (.valueError errInvalidPeerId), s)
  | some peer =>
    match api.parseMultiaddr address with
    | none => (.error (.valueError errInvalidAddress), s)
    | some addr =>
      match s.slot with
      | some sw => (.ok (), { s with slot := some (api.kadAddAddress sw peer addr) })
      | none => (.ok (), s)

/-- Method `get_connected_peers` (lib.rs 239-246). -/
def get_connected_peers (s : NodeState) : List String :=
  match s.slot with
  | some sw => sw.connectedPeers
  | none => []

/-- Method `get_listeners` (lib.rs 248-255). -/
def get_listeners (s : NodeState) : List String :=
  match s.slot with
  | some sw => sw.listeners
  | none => []

/-- Method `get_external_addresses` (lib.rs 257-264). -/
def get_external_addresses (s : NodeState) : List String :=
  match s.slot with
  | some sw => sw.externalAddresses
  | none => []

/-- Method `start_event_loop` (lib.rs 266-374): under the running lock,
fail when already running, otherwise set the flag to true; then take the
swarm out of the slot; when one was there, spawn a scheduler-loop task
that owns it; when the slot was empty, report "No swarm available" with
the flag left true. -/
def start_event_loop (s : NodeState) : PyResult × NodeState :=
  if s.running then
    (.error (.runtimeError errAlreadyRunning), s)
  else
    match s.slot with
    | some sw =>
      (.ok (), { s with running := true, slot := none,
                        loops := ⟨sw, .checking⟩ :: s.loops })
    | none =>
      (.error (.runtimeError errNoSwarm), { s with running := true })

/-- Method `stop_event_loop` (lib.rs 376-381). -/
def stop_event_loop (s : NodeState) : PyResult × NodeState :=
  (.ok (), { s with running := false })

/-- Method `get_events` (lib.rs 383-391): clone the queue, clear it,
return the clone. -/
def get_events (s : NodeState) : List CustomSwarmEvent × NodeState :=
  (s.event_queue, { s with event_queue := [] })

/-- Method `get_connection_stats` (lib.rs 393-399): clone of the stats
map. -/
def get_connection_stats (s : NodeState) : List (String × Nat) :=
  s.connection_stats

/-- Method `is_running` (lib.rs 401-407). -/
def is_running (s : NodeState) : Bool :=
  s.running

/-- Fields set by `Libp2pNode::new` (lib.rs 133-140): the freshly built
swarm in the slot, empty queue and stats, flag false, no loop spawned. -/
def initState (sw : Swarm) : NodeState :=
  { slot := some sw, event_queue := [], connection_stats := [],
    running := false, loops := [] }

/-- Label for one atomic step of a spawned scheduler loop. -/
inductive LoopLabel where
  | checkExit
  | checkContinue
  | advance (ev : RawEvent)
deriving DecidableEq

/-- Small-step semantics of a spawned scheduler loop (lib.rs 290-367).
`checkExit`: at the top of the loop with the flag false, break and put
the engine back into the slot (lib.rs 300-302 and 364-367).
`checkContinue`: flag observed true, move into
`select_next_some().await` (lib.rs 304). `advance`: the await resolves
with an occurrence; the engine may change while being polled; classify
the occurrence, update the stats, push and trim, and return to the top
of the loop (lib.rs 304-361). -/
inductive LoopStep : NodeState → LoopLabel → NodeState → Prop where
  | checkExit (s : NodeState) (pre post : List LoopTask) (l : LoopTask)
      (hl : s.loops = pre ++ l :: post) (hpc : l.pc = .checking)
      (hr : s.running = false) :
      LoopStep s .checkExit
        { s with loops := pre ++ post, slot := some l.engine }
  | checkContinue (s : NodeState) (pre post : List LoopTask) (l : LoopTask)
      (hl : s.loops = pre ++ l :: post) (hpc : l.pc = .checking)
      (hr : s.running = true) :
      LoopStep s .checkContinue
        { s with loops := pre ++ { l with pc := .awaiting } :: post }
  | advance (s : NodeState) (pre post : List LoopTask) (l : LoopTask)
      (ev : RawEvent) (eng' : Swarm)
      (hl : s.loops = pre ++ l :: post) (hpc : l.pc = .awaiting) :
      LoopStep s (.advance ev)
        { s with loops := pre ++ ⟨eng', .checking⟩ :: post,
                 event_queue := pushAndTrim s.event_queue ev,
                 connection_stats := statsUpdate s.connection_stats ev }

/-- One interleaved step of the whole node: a caller invoking
`start_event_loop`, `stop_event_loop` or `get_events`, or one spawned
scheduler loop making a step. -/
inductive Step : NodeState → NodeState → Prop where
  | start (s : NodeState) : Step s (start_event_loop s).2
  | stop (s : NodeState) : Step s (stop_event_loop s).2
  | drain (s : NodeState) : Step s (get_events s).2
  | sched (s s' : NodeState) (lab : LoopLabel) (h : LoopStep s lab s') :
      Step s s'

/-- Reachability from the freshly constructed node. -/
def Reachable (sw : Swarm) (s : NodeState) : Prop :=
  Relation.ReflTransGen Step (initState sw) s

/-- Chained scheduler-loop steps, labelled by what each step did. -/
inductive LoopTrace : NodeState → List LoopLabel → NodeState → Prop where
  | nil (s : NodeState) : LoopTrace s [] s
  | cons (s s' s'' : NodeState) (lab : LoopLabel) (labs : List LoopLabel)
      (h : LoopStep s lab s') (ht : LoopTrace s' labs s'') :
      LoopTrace s (lab :: labs) s''

/-- Number of `advance` steps in a loop trace. -/
def advCount : List LoopLabel → Nat
  | [] => 0
  | .advance _ :: rest => advCount rest + 1
  | .checkExit :: rest => advCount rest
  | .checkContinue :: rest => advCount rest

/-- Concrete sample swarm, address, peer and topic used by closed
evaluation theorems. -/
def swEx : Swarm := ⟨[], [], [], []⟩

def addrEx : String := "/ip4/127.0.0.1/tcp/4001"

def peerEx : String := "12D3KooWExamplePeer"

def topicEx : String := "stellaris-blocks"

/-- Concrete instantiation of the external collaborators for closed
evaluation: every string parses and every engine call succeeds without
changing the engine. -/
def okApi : ExternalApi :=
  { parseMultiaddr := fun a => some a
    parsePeerId := fun p => some p
    listenOn := fun sw _ => .ok sw
    swarmDial := fun sw _ => .ok sw
    gossipPublish := fun sw _ _ => .ok sw
    kadAddAddress := fun sw _ _ => sw }

/-- Concrete node state in which the scheduler loop owns the engine: the
slot is empty, the flag is true, one loop task is active. -/
def busyState : NodeState :=
  { slot := none, event_queue := [], connection_stats := [],
    running := true, loops := [⟨swEx, .checking⟩] }

/-- Concrete node state just after `stop_event_loop` was observed-to-be
pending: the flag is false while one loop task is still active and in
`select_next_some().await`. -/
def stoppingState : NodeState :=
  { slot := none, event_queue := [], connection_stats := [],
    running := false, loops := [⟨swEx, .awaiting⟩] }

/-- Concrete node state with the flag false and the slot empty. -/
def noSwarmIdleState : NodeState :=
  { slot := none, event_queue := [], connection_stats := [],
    running := false, loops := [] }

/-- C3: `get_events` returns the entire current event sequence in
insertion order and empties the log, so a second `get_events` with no
intervening push returns the empty sequence and no event is delivered
twice. -/
theorem get_events_drain_once (s : NodeState) :
    (get_events s).1 = s.event_queue ∧
    (get_events s).2.event_queue = [] ∧
    (get_events ((get_events s).2)).1 = [] ∧
    (get_events s).2 = { s with event_queue := [] } :=
  ⟨rfl, rfl, rfl, rfl⟩

/-- C6: calling `start_event_loop` while the running flag is already true
fails with the "Event loop already running" error and leaves the state
unchanged: the engine is not taken out of the slot and no second loop is
spawned. -/
theorem start_already_running (s : NodeState) (h : s.running = true) :
    start_event_loop s = (.error (.runtimeError errAlreadyRunning), s) ∧
    (start_event_loop s).2.slot = s.slot ∧
    (start_event_loop s).2.loops = s.loops := by
  simp [start_event_loop, h]

/-- Closed evaluation of `start_already_running` at `busyState`. -/
theorem start_already_running_witness :
    busyState.running = true ∧
    (start_event_loop busyState
        = (.error (.runtimeError errAlreadyRunning), busyState) ∧
      (start_event_loop busyState).2.slot = busyState.slot ∧
      (start_event_loop busyState).2.loops = busyState.loops) :=
  ⟨rfl, start_already_running busyState rfl⟩

/-- C9: calling `start_event_loop` with the running flag false but the
engine slot empty returns the "No swarm available" error yet leaves the
running flag set to true; afterwards `is_running` returns true although
no scheduler loop was spawned, and a further `start_event_loop` call
fails with "Event loop already running": the error path is not atomic. -/
theorem start_error_path_not_atomic (s : NodeState)
    (hr : s.running = false) (hs : s.slot = none) :
    start_event_loop s
      = (.error (.runtimeError errNoSwarm), { s with running := true }) ∧
    is_running (start_event_loop s).2 = true ∧
    (start_event_loop s).2.loops = s.loops ∧
    (start_event_loop s).2.slot = none ∧
    start_event_loop (start_event_loop s).2
      = (.error (.runtimeError errAlreadyRunning), (start_event_loop s).2) := by
  simp [start_event_loop, is_running, hr, hs]

/-- Closed evaluation of `start_error_path_not_atomic` at
`noSwarmIdleState`. -/
theorem start_error_path_not_atomic_witness :
    noSwarmIdleState.running = false ∧ noSwarmIdleState.slot = none ∧
    (start_event_loop noSwarmIdleState
        = (.error (.runtimeError errNoSwarm),
           { noSwarmIdleState with running := true }) ∧
      is_running (start_event_loop noSwarmIdleState).2 = true ∧
      (start_event_loop noSwarmIdleState).2.loops = noSwarmIdleState.loops ∧
      (start_event_loop noSwarmIdleState).2.slot = none ∧
      start_event_loop (start_event_loop noSwarmIdleState).2
        = (.error (.runtimeError errAlreadyRunning),
           (start_event_loop noSwarmIdleState).2)) :=
  ⟨rfl, rfl, start_error_path_not_atomic noSwarmIdleState rfl rfl⟩

/-- C10: whenever the engine slot is empty (the scheduler loop owns the
engine), `get_connected_peers`, `get_listeners` and
`get_external_addresses` each return the empty list. -/
theorem introspection_empty_when_scheduler_owns (s : NodeState)
    (h : s.slot = none) :
    get_connected_peers s = [] ∧ get_listeners s = [] ∧
    get_external_addresses s = [] := by
  simp [get_connected_peers, get_listeners, get_external_addresses, h]

/-- Closed evaluation of `introspection_empty_when_scheduler_owns` at
`busyState`. -/
theorem introspection_empty_when_scheduler_owns_witness :
    busyState.slot = none ∧
    (get_connected_peers busyState = [] ∧ get_listeners busyState = [] ∧
      get_external_addresses busyState = []) :=
  ⟨rfl, introspection_empty_when_scheduler_owns busyState rfl⟩

/-- C8 counterexample: with the engine in the slot and an empty gossipsub
subscription set, `unsubscribe_gossip` on an unsubscribed topic returns
a runtime error, not ok: the claimed NotSubscribed-noop does not hold. -/
theorem unsubscribe_not_subscribed_cex :
    (unsubscribe_gossip (initState swEx) topicEx).1
      = .error (.runtimeError errUnsubscribeFailed) ∧
    (unsubscribe_gossip (initState swEx) topicEx).1 ≠ .ok () := by
  constructor
  · rfl
  · intro h
    simp [unsubscribe_gossip, initState, swEx, gossipsubUnsubscribe,
          topicEx] at h

/-- C8 amended: when the node holds the engine and the topic is not
currently subscribed, `unsubscribe_gossip` returns the runtime error
"Failed to unsubscribe from topic" instead of an ok-noop. -/
theorem unsubscribe_not_subscribed_errors (s : NodeState) (sw : Swarm)
    (t : String) (hs : s.slot = some sw) (ht : t ∉ sw.subscribedTopics) :
    (unsubscribe_gossip s t).1
      = .error (.runtimeError errUnsubscribeFailed) := by
  simp [unsubscribe_gossip, gossipsubUnsubscribe, hs, ht]

/-- Closed evaluation of `unsubscribe_not_subscribed_errors` at the
freshly constructed node. -/
theorem unsubscribe_not_subscribed_errors_witness :
    (initState swEx).slot = some swEx ∧
    topicEx ∉ swEx.subscribedTopics ∧
    (unsubscribe_gossip (initState swEx) topicEx).1
      = .error (.runtimeError errUnsubscribeFailed) :=
  ⟨rfl, by decide,
   unsubscribe_not_subscribed_errors (initState swEx) swEx topicEx rfl
     (by decide)⟩

/-- C4 counterexample: with the engine owned by the scheduler (slot empty,
running true), `dial`, `start_listening`, `publish_gossip`,
`subscribe_gossip` and `add_address` all return ok with the state
unchanged — they silently do nothing instead of failing with an
EngineBusy error. -/
theorem engine_busy_silent_noop_cex :
    (dial okApi busyState addrEx).1 = .ok () ∧
    (dial okApi busyState addrEx).2 = busyState ∧
    (start_listening okApi busyState addrEx).1 = .ok () ∧
    (publish_gossip okApi busyState topicEx []).1 = .ok () ∧
    (subscribe_gossip busyState topicEx).1 = .ok () ∧
    (add_address okApi busyState peerEx addrEx).1 = .ok () ∧
    (add_address okApi busyState peerEx addrEx).2 = busyState :=
  ⟨rfl, rfl, rfl, rfl, rfl, rfl, rfl⟩

/-- C4 amended: when the engine slot is empty, each mutating call that
needs direct engine access (dial, listen, publish, subscribe,
unsubscribe, add-address) silently returns ok and leaves the state
unchanged once its string inputs parse; no EngineBusy error exists. -/
theorem engine_busy_silent_noop (api : ExternalApi) (s : NodeState)
    (a p t : String) (d : List Nat) (h : s.slot = none)
    (ha : (api.parseMultiaddr a).isSome = true)
    (hp : (api.parsePeerId p).isSome = true) :
    dial api s a = (.ok (), s) ∧
    start_listening api s a = (.ok (), s) ∧
    publish_gossip api s t d = (.ok (), s) ∧
    subscribe_gossip s t = (.ok (), s) ∧
    unsubscribe_gossip s t = (.ok (), s) ∧
    add_address api s p a = (.ok (), s) := by
  obtain ⟨m, hm⟩ := Option.isSome_iff_exists.mp ha
  obtain ⟨q, hq⟩ := Option.isSome_iff_exists.mp hp
  simp [dial, start_listening, publish_gossip, subscribe_gossip,
        unsubscribe_gossip, add_address, h, hm, hq]

/-- Closed evaluation of `engine_busy_silent_noop` at `busyState`. -/
theorem engine_busy_silent_noop_witness :
    busyState.slot = none ∧
    (okApi.parseMultiaddr addrEx).isSome = true ∧
    (okApi.parsePeerId peerEx).isSome = true ∧
    (dial okApi busyState addrEx = (.ok (), busyState) ∧
      start_listening okApi busyState addrEx = (.ok (), busyState) ∧
      publish_gossip okApi busyState topicEx [] = (.ok (), busyState) ∧
      subscribe_gossip busyState topicEx = (.ok (), busyState) ∧
      unsubscribe_gossip busyState topicEx = (.ok (), busyState) ∧
      add_address okApi busyState peerEx addrEx = (.ok (), busyState)) :=
  ⟨rfl, rfl, rfl,
   engine_busy_silent_noop okApi busyState addrEx peerEx topicEx [] rfl rfl
     rfl⟩

/-- One `bumpEntry` sets the peer's entry to its previous value plus one,
entering at 1 when the peer is absent. -/
theorem lookup_bumpEntry (stats : List (String × Nat)) (p : String) :
    (bumpEntry stats p).lookup p = some ((stats.lookup p).getD 0 + 1) := by
  induction stats with
  | nil => simp [bumpEntry]
  | cons hd tl ih =>
    obtain ⟨q, n⟩ := hd
    by_cases hqp : q = p
    · subst hqp
      simp [bumpEntry, List.lookup]
    · have hpq : (p == q) = false := beq_eq_false_iff_ne.mpr (Ne.symm hqp)
      simp [bumpEntry, hqp, List.lookup, hpq, ih]

/-- Iterating `bumpEntry` N+1 times adds N+1 to the peer's counter. -/
theorem lookup_bumpEntry_iterate (p : String) (N : Nat) :
    ∀ stats : List (String × Nat),
      (((fun st => bumpEntry st p)^[N + 1]) stats).lookup p
        = some ((stats.lookup p).getD 0 + (N + 1)) := by
  induction N with
  | zero =>
    intro stats
    simpa using lookup_bumpEntry stats p
  | succ n ih =>
    intro stats
    rw [Function.iterate_succ_apply]
    rw [ih (bumpEntry stats p)]
    rw [lookup_bumpEntry stats p]
    congr 1
    simp
    omega

/-- C5: recording a connection-established occurrence increments that
peer's counter, creating the entry at 1 when absent; after N such
occurrences for a peer that starts absent, the connection-stats snapshot
maps that peer to exactly N. -/
theorem connection_stats_exact_count (s : NodeState)
    (stats0 : List (String × Nat)) (p ra : String) (N : Nat)
    (h0 : stats0.lookup p = none) (hN : 0 < N)
    (hs : s.connection_stats
      = ((fun st => statsUpdate st (.connectionEstablished p ra))^[N]) stats0) :
    (get_connection_stats s).lookup p = some N ∧
    statsUpdate stats0 (.connectionEstablished p ra) = bumpEntry stats0 p ∧
    (bumpEntry stats0 p).lookup p = some 1 := by
  have hfun : (fun st => statsUpdate st (.connectionEstablished p ra))
      = fun st => bumpEntry st p := rfl
  obtain ⟨M, rfl⟩ : ∃ M, N = M + 1 := ⟨N - 1, by omega⟩
  refine ⟨?_, rfl, ?_⟩
  · rw [get_connection_stats, hs, hfun, lookup_bumpEntry_iterate p M stats0]
    rw [h0]
    simp
  · rw [lookup_bumpEntry, h0]
    rfl

/-- Closed evaluation of `connection_stats_exact_count`: three established
connections for `peerEx` yield a count of exactly 3. -/
theorem connection_stats_exact_count_witness :
    ([] : List (String × Nat)).lookup peerEx = none ∧ 0 < 3 ∧
    ((get_connection_stats
        ⟨none, [],
         ((fun st => statsUpdate st (.connectionEstablished peerEx addrEx))^[3])
           [],
         true, []⟩).lookup peerEx = some 3 ∧
      statsUpdate [] (.connectionEstablished peerEx addrEx)
        = bumpEntry [] peerEx ∧
      (bumpEntry [] peerEx).lookup peerEx = some 1) :=
  ⟨rfl, by decide,
   connection_stats_exact_count
     ⟨none, [],
      ((fun st => statsUpdate st (.connectionEstablished peerEx addrEx))^[3])
        [],
      true, []⟩
     [] peerEx addrEx 3 rfl (by decide) rfl⟩

/-- At most one event is appended per loop iteration. -/
theorem length_classify_toList (ev : RawEvent) :
    ((classify ev).toList).length ≤ 1 := by
  cases ev <;> simp [classify]

/-- One push-and-trim keeps the queue at or under the cap. -/
theorem pushAndTrim_length_le (q : List CustomSwarmEvent) (ev : RawEvent)
    (hq : q.length ≤ queueCap) : (pushAndTrim q ev).length ≤ queueCap := by
  have h1 : ((classify ev).toList).length ≤ 1 := length_classify_toList ev
  by_cases h : queueCap < (q ++ (classify ev).toList).length
  · rw [pushAndTrim, trimQueue, if_pos h, List.length_drop,
        List.length_append]
    rw [List.length_append] at h
    simp only [queueCap] at *
    omega
  · rw [pushAndTrim, trimQueue, if_neg h]
    omega

/-- Any sequence of loop iterations keeps the queue at or under the cap. -/
theorem foldl_pushAndTrim_length_le (evs : List RawEvent) :
    ∀ q : List CustomSwarmEvent, q.length ≤ queueCap →
      (evs.foldl pushAndTrim q).length ≤ queueCap := by
  induction evs with
  | nil =>
    intro q hq
    simpa using hq
  | cons e rest ih =>
    intro q hq
    rw [List.foldl_cons]
    exact ih (pushAndTrim q e) (pushAndTrim_length_le q e hq)

/-- C2: after each iteration's trim step the event log never exceeds the
cap of 1000 (also along any whole sequence of iterations); when the cap
is exceeded, the oldest `queueCap / 2` = 500 events are evicted in one
batch and the retained events are exactly the most recent
cap/2-to-cap events in their original order (a suffix of the pushed
log). -/
theorem event_log_cap_invariant (q : List CustomSwarmEvent) (ev : RawEvent)
    (hq : q.length ≤ queueCap) :
    (pushAndTrim q ev).length ≤ queueCap ∧
    (∀ evs : List RawEvent, (evs.foldl pushAndTrim q).length ≤ queueCap) ∧
    (queueCap < (q ++ (classify ev).toList).length →
      pushAndTrim q ev = (q ++ (classify ev).toList).drop (queueCap / 2) ∧
      ((q ++ (classify ev).toList).take (queueCap / 2)).length = queueCap / 2 ∧
      (q ++ (classify ev).toList).take (queueCap / 2) ++ pushAndTrim q ev
        = q ++ (classify ev).toList ∧
      queueCap / 2 ≤ (pushAndTrim q ev).length) := by
  refine ⟨pushAndTrim_length_le q ev hq,
          fun evs => foldl_pushAndTrim_length_le evs q hq,
          fun hover => ?_⟩
  have hdef : pushAndTrim q ev
      = (q ++ (classify ev).toList).drop (queueCap / 2) := by
    rw [pushAndTrim, trimQueue, if_pos hover]
  have hlen : queueCap / 2 ≤ (q ++ (classify ev).toList).length := by
    simp only [queueCap] at *
    omega
  refine ⟨hdef, ?_, ?_, ?_⟩
  · rw [List.length_take]
    exact Nat.min_eq_left hlen
  · rw [hdef, List.take_append_drop]
  · rw [hdef, List.length_drop]
    simp only [queueCap] at *
    omega

/-- Closed evaluation of `event_log_cap_invariant` at the empty queue. -/
theorem event_log_cap_invariant_witness :
    ([] : List CustomSwarmEvent).length ≤ queueCap ∧
    ((pushAndTrim [] .other).length ≤ queueCap ∧
      (∀ evs : List RawEvent, (evs.foldl pushAndTrim []).length ≤ queueCap) ∧
      (queueCap < (([] : List CustomSwarmEvent)
            ++ (classify .other).toList).length →
        pushAndTrim [] .other
          = (([] : List CustomSwarmEvent)
              ++ (classify .other).toList).drop (queueCap / 2) ∧
        ((([] : List CustomSwarmEvent)
            ++ (classify .other).toList).take (queueCap / 2)).length
          = queueCap / 2 ∧
        (([] : List CustomSwarmEvent)
            ++ (classify .other).toList).take (queueCap / 2)
            ++ pushAndTrim [] .other
          = ([] : List CustomSwarmEvent) ++ (classify .other).toList ∧
        queueCap / 2 ≤ (pushAndTrim [] .other).length)) :=
  ⟨by decide, event_log_cap_invariant [] .other (by decide)⟩

/-- Decomposing a list of length at most one around a distinguished
element forces both sides to be empty. -/
theorem split_singleton {α : Type} (pre post : List α) (l : α)
    (h : (pre ++ l :: post).length ≤ 1) : pre = [] ∧ post = [] := by
  rw [List.length_append, List.length_cons] at h
  constructor
  · exact List.length_eq_zero.mp (by omega)
  · exact List.length_eq_zero.mp (by omega)

/-- Every interleaved step preserves the single-owner property: at most
one active loop, and the slot is full exactly when no loop is active. -/
theorem step_preserves_single_owner (s s' : NodeState) (h : Step s s')
    (hinv : s.loops.length ≤ 1 ∧ (s.slot.isSome ↔ s.loops.length = 0)) :
    s'.loops.length ≤ 1 ∧ (s'.slot.isSome ↔ s'.loops.length = 0) := by
  obtain ⟨hlen, hiff⟩ := hinv
  cases h with
  | start =>
    by_cases hr : s.running = true
    · simp only [start_event_loop, hr, if_true]
      exact ⟨hlen, hiff⟩
    · cases hslot : s.slot with
      | some sw =>
        have h0 : s.loops.length = 0 := hiff.mp (by rw [hslot]; rfl)
        have hnil : s.loops = [] := List.length_eq_zero.mp h0
        simp [start_event_loop, hr, hslot, hnil]
      | none =>
        simp only [start_event_loop, hr, hslot, if_false, Bool.false_eq_true]
        exact ⟨hlen, by rw [hslot] at hiff; exact hiff⟩
  | stop =>
    exact ⟨hlen, hiff⟩
  | drain =>
    exact ⟨hlen, hiff⟩
  | sched s2 lab hstep =>
    cases hstep with
    | checkExit pre post l hl hpc hr2 =>
      obtain ⟨hp, hq⟩ := split_singleton pre post l (hl ▸ hlen)
      subst hp
      subst hq
      simp
    | checkContinue pre post l hl hpc hr2 =>
      rw [hl] at hlen hiff
      constructor
      · simp only [List.length_append, List.length_cons] at hlen ⊢
        omega
      · simp only [List.length_append, List.length_cons] at hiff ⊢
        exact hiff
    | advance pre post l ev eng' hl hpc =>
      rw [hl] at hlen hiff
      constructor
      · simp only [List.length_append, List.length_cons] at hlen ⊢
        omega
      · simp only [List.length_append, List.length_cons] at hiff ⊢
        exact hiff

/-- C1: at every reachable state the engine has at most one owner: the
slot holds the engine exactly when no scheduler loop is active, the slot
is empty exactly while a single spawned loop owns the engine, and no
interleaving of `start_event_loop`, `stop_event_loop` and scheduler-loop
iterations ever produces two concurrently active loops. -/
theorem single_owner_invariant (sw : Swarm) (s : NodeState)
    (h : Reachable sw s) :
    s.loops.length ≤ 1 ∧ (s.slot.isSome ↔ s.loops.length = 0) := by
  induction h with
  | refl => simp [initState]
  | tail hab hbc ih => exact step_preserves_single_owner _ _ hbc ih

/-- Closed evaluation of `single_owner_invariant` at the state reached by
one successful `start_event_loop` from the freshly constructed node. -/
theorem single_owner_invariant_witness :
    Reachable swEx (start_event_loop (initState swEx)).2 ∧
    ((start_event_loop (initState swEx)).2.loops.length ≤ 1 ∧
      ((start_event_loop (initState swEx)).2.slot.isSome ↔
        (start_event_loop (initState swEx)).2.loops.length = 0)) :=
  ⟨Relation.ReflTransGen.single (Step.start (initState swEx)),
   single_owner_invariant swEx (start_event_loop (initState swEx)).2
     (Relation.ReflTransGen.single (Step.start (initState swEx)))⟩

/-- Splitting off the head of a loop trace splits the advance count. -/
theorem advCount_cons (lab : LoopLabel) (labs : List LoopLabel) :
    advCount (lab :: labs) = advCount [lab] + advCount labs := by
  cases lab with
  | checkExit => simp [advCount]
  | checkContinue => simp [advCount]
  | advance ev =>
    simp only [advCount]
    omega

/-- Remaining number of `advance` steps a stopped loop can still take:
one while inside the in-flight await, none at the top of the loop. -/
def advBudget (s : NodeState) : Nat :=
  match s.loops with
  | [] => 0
  | l :: _ =>
    match l.pc with
    | .checking => 0
    | .awaiting => 1

/-- Remaining number of steps of any kind a stopped loop can still take. -/
def stepBudget (s : NodeState) : Nat :=
  match s.loops with
  | [] => 0
  | l :: _ =>
    match l.pc with
    | .checking => 1
    | .awaiting => 2

theorem advBudget_le_one (s : NodeState) : advBudget s ≤ 1 := by
  unfold advBudget
  cases s.loops with
  | nil => simp
  | cons l rest =>
    obtain ⟨eng, pc⟩ := l
    cases pc <;> simp

theorem stepBudget_le_two (s : NodeState) : stepBudget s ≤ 2 := by
  unfold stepBudget
  cases s.loops with
  | nil => simp
  | cons l rest =>
    obtain ⟨eng, pc⟩ := l
    cases pc <;> simp

/-- One loop step taken while the running flag is false decreases the
step budget and consumes advance budget for each advance performed. -/
theorem loopStep_stopped_budget (s : NodeState) (lab : LoopLabel)
    (s' : NodeState) (hr : s.running = false) (hlen : s.loops.length ≤ 1)
    (h : LoopStep s lab s') :
    s'.running = false ∧ s'.loops.length ≤ 1 ∧
    stepBudget s' + 1 ≤ stepBudget s ∧
    advBudget s' + advCount [lab] ≤ advBudget s := by
  cases h with
  | checkExit pre post l hl hpc hr2 =>
    obtain ⟨hp, hq⟩ := split_singleton pre post l (hl ▸ hlen)
    subst hp
    subst hq
    refine ⟨hr, by simp, ?_, ?_⟩
    · simp [stepBudget, hl, hpc]
    · simp [advBudget, advCount, hl, hpc]
  | checkContinue pre post l hl hpc hr2 =>
    rw [hr2] at hr
    exact absurd hr (by simp)
  | advance pre post l ev eng' hl hpc =>
    obtain ⟨hp, hq⟩ := split_singleton pre post l (hl ▸ hlen)
    subst hp
    subst hq
    refine ⟨hr, by simp, ?_, ?_⟩
    · simp [stepBudget, hl, hpc]
    · simp [advBudget, advCount, hl, hpc]

/-- Along any loop trace from a stopped state, the advance count is
bounded by the advance budget and the trace length by the step budget. -/
theorem loopTrace_stopped_budget (s : NodeState) (labs : List LoopLabel)
    (s' : NodeState) (h : LoopTrace s labs s') :
    s.running = false → s.loops.length ≤ 1 →
    advCount labs ≤ advBudget s ∧ labs.length ≤ stepBudget s := by
  induction h with
  | nil s =>
    intro _ _
    simp [advCount]
  | cons s s1 s2 lab labs hstep htr ih =>
    intro hr hlen
    obtain ⟨hr1, hlen1, hstepb, hadvb⟩ :=
      loopStep_stopped_budget s lab s1 hr hlen hstep
    obtain ⟨ihadv, ihlen⟩ := ih hr1 hlen1
    rw [advCount_cons]
    constructor
    · omega
    · rw [List.length_cons]
      omega

/-- The event pushed last survives the trim and sits at the end of the
queue. -/
theorem getLast?_trimQueue_concat (q : List CustomSwarmEvent)
    (ce : CustomSwarmEvent) :
    (trimQueue (q ++ [ce])).getLast? = some ce := by
  unfold trimQueue
  by_cases h : queueCap < (q ++ [ce]).length
  · rw [if_pos h]
    have hq : queueCap / 2 ≤ q.length := by
      rw [List.length_append, List.length_cons, List.length_nil] at h
      simp only [queueCap] at *
      omega
    rw [List.drop_append_of_le_length hq, List.getLast?_concat]
  · rw [if_neg h, List.getLast?_concat]

/-- An active scheduler loop always has a next step: the loop never gets
stuck before putting the engine back. -/
theorem loop_progress (t : NodeState) (hne : t.loops ≠ []) :
    ∃ lab t', LoopStep t lab t' := by
  cases hl : t.loops with
  | nil => exact absurd hl hne
  | cons l rest =>
    obtain ⟨eng, pc⟩ := l
    cases pc with
    | checking =>
      cases hr : t.running with
      | false =>
        exact ⟨.checkExit, _,
          LoopStep.checkExit t [] rest ⟨eng, .checking⟩ hl rfl hr⟩
      | true =>
        exact ⟨.checkContinue, _,
          LoopStep.checkContinue t [] rest ⟨eng, .checking⟩ hl rfl hr⟩
    | awaiting =>
      exact ⟨.advance .other, _,
        LoopStep.advance t [] rest ⟨eng, .awaiting⟩ .other eng hl rfl⟩

/-- C7: once `stop_event_loop` has set the running flag to false, the
scheduler loop performs at most one more in-flight advance and at most
two more steps of any kind before it is gone, and it never gets stuck
while still active; the event produced by that in-flight advance is
still recorded at the end of the event log; and the exit step returns
the engine to the slot with the flag still false (controller back to
Idle). -/
theorem stop_bounded_latency (s : NodeState)
    (hr : s.running = false) (hlen : s.loops.length ≤ 1) :
    (∀ labs s', LoopTrace s labs s' →
      advCount labs ≤ 1 ∧ labs.length ≤ 2) ∧
    (∀ labs s', LoopTrace s labs s' →
      s'.loops = [] ∨ ∃ lab s'', LoopStep s' lab s'') ∧
    (∀ ev s' ce, LoopStep s (.advance ev) s' → classify ev = some ce →
      (get_events s').1.getLast? = some ce) ∧
    (∀ s', LoopStep s .checkExit s' →
      s'.slot.isSome = true ∧ s'.loops.length + 1 = s.loops.length ∧
      s'.running = false) := by
  refine ⟨?_, ?_, ?_, ?_⟩
  · intro labs s' htr
    obtain ⟨hadv, hsteps⟩ := loopTrace_stopped_budget s labs s' htr hr hlen
    exact ⟨le_trans hadv (advBudget_le_one s),
           le_trans hsteps (stepBudget_le_two s)⟩
  · intro labs s' htr
    by_cases hne : s'.loops = []
    · exact Or.inl hne
    · exact Or.inr (loop_progress s' hne)
  · intro ev s' ce hstep hce
    cases hstep with
    | advance pre post l ev eng' hl hpc =>
      show (pushAndTrim s.event_queue ev).getLast? = some ce
      rw [pushAndTrim, hce]
      exact getLast?_trimQueue_concat s.event_queue ce
  · intro s' hstep
    cases hstep with
    | checkExit pre post l hl hpc hr2 =>
      refine ⟨rfl, ?_, hr⟩
      show (pre ++ post).length + 1 = s.loops.length
      rw [hl, List.length_append, List.length_append, List.length_cons]
      omega

/-- Closed evaluation of `stop_bounded_latency` at `stoppingState`, a
stopped node whose single loop is inside the in-flight await. -/
theorem stop_bounded_latency_witness :
    stoppingState.running = false ∧ stoppingState.loops.length ≤ 1 ∧
    ((∀ labs s', LoopTrace stoppingState labs s' →
        advCount labs ≤ 1 ∧ labs.length ≤ 2) ∧
      (∀ labs s', LoopTrace stoppingState labs s' →
        s'.loops = [] ∨ ∃ lab s'', LoopStep s' lab s'') ∧
      (∀ ev s' ce, LoopStep stoppingState (.advance ev) s' →
        classify ev = some ce → (get_events s').1.getLast? = some ce) ∧
      (∀ s', LoopStep stoppingState .checkExit s' →
        s'.slot.isSome = true ∧
        s'.loops.length + 1 = stoppingState.loops.length ∧
        s'.running = false)) :=
  ⟨rfl, by decide, stop_bounded_latency stoppingState rfl (by decide)⟩

end PyLibp2p
